import Mathlib

/-!
Verification of the resumable download engine and session manager of
`download.mjs` (maktabkhooneh-downloader).  JavaScript functions are
shallowly embedded as Lean functions; network and filesystem effects are
passed in as explicit oracle arguments, and the observable behaviour of a
call (its result, the requests it issued, the backoff delays it waited,
the final file states) is returned as data.
-/

namespace MDL

/-! ## Backoff and classification (`toBackoffMs`, `isRetriableStatus`) -/

/-- Source `toBackoffMs(attempt)`: `Math.min(30_000, 700 * (2 ** Math.max(0, attempt - 1)))`. -/
def toBackoffMs (attempt : Int) : Int :=
  min 30000 (700 * 2 ^ (max 0 (attempt - 1)).toNat)

/-- Source `isRetriableStatus(status)`: 408, 425, 429 or any 5xx. -/
def isRetriableStatus (status : Nat) : Bool :=
  status == 408 || status == 425 || status == 429 ||
    (decide (500 ≤ status) && decide (status ≤ 599))

/-! ## The retrying request client (`fetchWithRetry`)

One logical request is a loop over attempts `1..retries`.  The outcome of
each underlying `fetchWithTimeout` call is supplied by an oracle
`o : Nat → FetchAttemptOutcome` (`o a` is what attempt `a` produced): either a
received response (with its status) or a thrown transport error, carrying the
value that `isRetriableNetworkError` computes for it. -/

inductive FetchAttemptOutcome where
  | response (status : Nat)
  | thrown (retriable : Bool)
deriving DecidableEq, Repr

inductive FetchResult where
  | returned (status : Nat)
  | threw (retriable : Bool)
  | exhausted
deriving DecidableEq, Repr

/-- The attempt loop of `fetchWithRetry`, from attempt `attempt` with `fuel`
iterations left.  Returns the result together with the list of backoff delays
slept (in order).  `.exhausted` models the final
`throw lastErr || new Error(\x7b...\x7d)` line, reachable only when the loop
never runs. -/
def runFetch (o : Nat → FetchAttemptOutcome) (retries : Nat) :
    Nat → Nat → FetchResult × List Int
  | _, 0 => (.exhausted, [])
  | attempt, fuel + 1 =>
    match o attempt with
    | .response s =>
      if isRetriableStatus s = true ∧ attempt < retries then
        let r := runFetch o retries (attempt + 1) fuel
        (r.1, toBackoffMs attempt :: r.2)
      else (.returned s, [])
    | .thrown b =>
      if attempt < retries ∧ b = true then
        let r := runFetch o retries (attempt + 1) fuel
        (r.1, toBackoffMs attempt :: r.2)
      else (.threw b, [])

/-- Source `fetchWithRetry(url, options, opts)`: run the attempt loop from
attempt 1. -/
def fetchWithRetry (o : Nat → FetchAttemptOutcome) (retries : Nat) :
    FetchResult × List Int :=
  runFetch o retries 1 retries

/-! ## Claims C9 and C4 -/

/-- C9: for every attempt ≥ 1, the backoff delay function returns exactly
`min(30000, 700 * 2^(attempt-1))` milliseconds, deterministically (it is a
pure function of `attempt`, no jitter). -/
theorem backoff_delay_formula (attempt : Int) (h : 1 ≤ attempt) :
    toBackoffMs attempt = min 30000 (700 * 2 ^ (attempt - 1).toNat) := by
  unfold toBackoffMs
  have hmax : max 0 (attempt - 1) = attempt - 1 := by omega
  rw [hmax]

theorem backoff_delay_formula_witness :
    (1 : Int) ≤ 6 ∧ toBackoffMs 6 = min 30000 (700 * 2 ^ ((6 : Int) - 1).toNat) :=
  ⟨by decide, backoff_delay_formula 6 (by decide)⟩

/-- C4: for `fetchWithRetry` with `retries = R ≥ 1`:
(i) a received response whose status is not retriable is returned as-is
    (2xx or not) with no further waiting;
(ii) a retriable-status response with attempts remaining causes a wait of
    `toBackoffMs attempt` followed by a retry at `attempt + 1`;
(iii) on the last attempt `R`, a received (failing) response is returned;
(iv) on the last attempt `R`, a thrown transport error propagates.
`runFetch o R a (f+1)` is the loop at attempt `a` with iterations left. -/
theorem fetch_retry_policy (o : Nat → FetchAttemptOutcome) (R : Nat) (hR : 1 ≤ R) :
    (∀ a f s, o a = .response s → isRetriableStatus s = false →
        runFetch o R a (f + 1) = (.returned s, [])) ∧
    (∀ a f s, o a = .response s → isRetriableStatus s = true → a < R →
        runFetch o R a (f + 1) =
          ((runFetch o R (a + 1) f).1,
            toBackoffMs a :: (runFetch o R (a + 1) f).2)) ∧
    (∀ f s, o R = .response s → runFetch o R R (f + 1) = (.returned s, [])) ∧
    (∀ f b, o R = .thrown b → runFetch o R R (f + 1) = (.threw b, [])) := by
  refine ⟨?_, ?_, ?_, ?_⟩
  · intro a f s ho hs
    simp [runFetch, ho, hs]
  · intro a f s ho hs ha
    simp [runFetch, ho, hs, ha]
  · intro f s ho
    simp [runFetch, ho]
  · intro f b ho
    simp [runFetch, ho]

theorem fetch_retry_policy_witness :
    1 ≤ 2 ∧
      runFetch (fun a => if a = 1 then .response 503 else .response 404) 2 1 2 =
        (.returned 404, [toBackoffMs 1]) := by
  refine ⟨by decide, ?_⟩
  have h := fetch_retry_policy (fun a => if a = 1 then .response 503 else .response 404) 2
    (by decide)
  have h2 := h.2.1 1 1 503 (by decide) (by decide) (by decide)
  have h3 := h.1 2 0 404 (by decide) (by decide)
  rw [h2, h3]
  norm_num

/-! ## Actionable error messages and retry classification of download errors

`downloadToFile`'s catch block computes
`isRetriableNetworkError(err) || /HTTP (408|425|429|5\d\d)/.test(err.message)`.
For the two errors that `downloadToFile` itself constructs (`explainHttpFailure`
and the range-not-honored error) this is a pure function of the message text,
so we embed the exact message strings and the two textual tests
(`AbortError` names and `cause.code`s do not occur on these `new Error`s). -/

def urlPlaceholderHint : String := "https://maktabkhooneh.org/course/<slug>/"

/-- Source `buildActionableError(code, why, next)`. -/
def buildActionableError (code why : String) (next : List String) : String :=
  String.intercalate "\n"
    (("[" ++ code ++ "] " ++ why) ::
      (if next.isEmpty then [] else "Next step:" :: next.map (fun n => "- " ++ n)))

/-- Source `explainHttpFailure(status, context)`. -/
def explainHttpFailure (status : Nat) (context : String) : String :=
  if status = 401 then
    buildActionableError "AUTH_401"
      (context ++ " failed with 401 Unauthorized. Your session/cookie is invalid or expired.")
      ["Re-login with: node download.mjs \"" ++ urlPlaceholderHint ++ "\" --force-login",
       "Or set auth.email/auth.password in config.json"]
  else if status = 403 then
    buildActionableError "ACCESS_403"
      (context ++ " failed with 403 Forbidden. Your account does not have access to this course/content, or cookie was rejected.")
      ["Make sure you are logged in with the account that purchased the course.",
       "Retry after re-login: node download.mjs \"" ++ urlPlaceholderHint ++ "\" --force-login"]
  else if status = 429 then
    buildActionableError "RATE_LIMIT_429"
      (context ++ " failed with 429 Too Many Requests.")
      ["Wait a few minutes and retry.",
       "Optionally reduce pressure by selecting smaller scope: --chapter 1 --lesson 1-3"]
  else if 500 ≤ status then
    buildActionableError ("SERVER_" ++ toString status)
      (context ++ " failed with " ++ toString status ++ ". Temporary server-side issue.")
      ["Retry the same command after a short delay."]
  else
    buildActionableError ("HTTP_" ++ toString status)
      (context ++ " failed with HTTP " ++ toString status ++ ".")
      ["Run again with --verbose to inspect details."]

/-- Substring test: does the character list contain `needle` anywhere? -/
def containsSub (needle : List Char) : List Char → Bool
  | [] => needle.isEmpty
  | c :: rest => needle.isPrefixOf (c :: rest) || containsSub needle rest

/-- Source `isTimeoutError` on a plain `new Error(msg)` (name `"Error"`, no cause):
`msg.toLowerCase().includes('timeout') || msg.toLowerCase().includes('timed out')`. -/
def isTimeoutMessage (msg : String) : Bool :=
  containsSub "timeout".toList (msg.toList.map Char.toLower) ||
    containsSub "timed out".toList (msg.toList.map Char.toLower)

/-- Does `cs` start with one of the codes `408|425|429|5\d\d`? -/
def httpCodeAt : List Char → Bool
  | '4' :: '0' :: '8' :: _ => true
  | '4' :: '2' :: '5' :: _ => true
  | '4' :: '2' :: '9' :: _ => true
  | '5' :: a :: b :: _ => a.isDigit && b.isDigit
  | _ => false

/-- The test `/HTTP (408|425|429|5\d\d)/.test(msg)`: scan for a literal
`"HTTP "` followed by one of the codes. -/
def scanHttpCode : List Char → Bool
  | 'H' :: 'T' :: 'T' :: 'P' :: ' ' :: rest => httpCodeAt rest || scanHttpCode rest
  | _ :: rest => scanHttpCode rest
  | [] => false

def messageHasHttpCode (msg : String) : Bool :=
  scanHttpCode msg.toList

/-- The errors the download attempt can raise. `httpFailure` is
`new Error(explainHttpFailure(status, 'Download'))`; `rangeNotHonored` the
literal range error; `network` any error thrown by `fetch` or the stream
pipeline, carrying the value of the catch block's
`isRetriableNetworkError(err) || /HTTP .../.test(err.message)` for it. -/
inductive DlErr where
  | httpFailure (status : Nat)
  | rangeNotHonored
  | network (retriable : Bool)
deriving DecidableEq, Repr

def rangeErrorMessage : String := "Server did not honor range; restarting from 0"

/-- The catch block's `retryable` flag. -/
def downloadRetryable : DlErr → Bool
  | .httpFailure s =>
    isTimeoutMessage (explainHttpFailure s "Download") ||
      messageHasHttpCode (explainHttpFailure s "Download")
  | .rangeNotHonored =>
    isTimeoutMessage rangeErrorMessage || messageHasHttpCode rangeErrorMessage
  | .network r => r

/-! ## The `ByteLimit` transform

A chunk is a list of bytes; the stream is a list of chunks.  `limit` is the
constructor argument (a JS number, embedded as `Int` to keep the `limit <= 0`
branch), `seen` the accumulated count.  `byteLimitStep` is one `_transform`
call: the pushed output and the new `seen`.  Once `seen ≥ limit` the
transform ends itself and pushes nothing further, so folding `byteLimitStep`
over all chunks reproduces the emitted byte sequence. -/

def byteLimitStep (limit : Int) (seen : Nat) (chunk : List Nat) :
    List Nat × Nat :=
  if limit ≤ 0 then (chunk, seen)
  else
    let remaining : Int := limit - seen
    if remaining ≤ 0 then ([], seen)
    else
      let buf := if (chunk.length : Int) > remaining then chunk.take remaining.toNat else chunk
      (buf, seen + buf.length)

/-- All bytes emitted by a `ByteLimit limit` transform fed the chunk list,
starting from accumulated count `seen`. -/
def byteLimitRun (limit : Int) (seen : Nat) : List (List Nat) → List Nat
  | [] => []
  | c :: cs =>
    (byteLimitStep limit seen c).1 ++ byteLimitRun limit (byteLimitStep limit seen c).2 cs

/-! ## The resumable transfer engine (`downloadToFile`)

Filesystem and network are oracles:
* `finalFile` / `tmpFile` are the sizes of `filePath` / `filePath + '.part'`
  (`none` = absent); `statSync` on an absent file throws and is caught,
  leaving the corresponding `existing*Size` local at 0.
* `probe` is what `getRemoteSizeAndRanges` reports (it never throws: both of
  its request attempts are wrapped in try/catch).
* `outcomes a` is what the attempt-`a` `fetch` produced: a thrown transport
  error or a response together with its relevant headers and the behaviour of
  its body stream (`bodyBytes` bytes delivered, then either a clean end or a
  stream error with its retry classification). -/

structure RemoteInfo where
  size : Option Nat
  acceptRanges : Bool
deriving DecidableEq, Repr

/-- JS truthiness of `remoteInfo.size` (``undefined`` and `0` are falsy). -/
def sizeTruthy : Option Nat → Bool
  | some n => n != 0
  | none => false

structure HttpResponse where
  status : Nat
  hasBody : Bool
  contentLength : Option Nat
  contentRangeTotal : Option Nat
  bodyBytes : Nat
  bodyErr : Option Bool
deriving DecidableEq, Repr

inductive FetchOutcome where
  | fetchErr (retriable : Bool)
  | response (r : HttpResponse)
deriving DecidableEq, Repr

/-- The loop-carried mutable locals of `downloadToFile` plus the two on-disk
files. -/
structure AttState where
  existingTmpSize : Nat
  existingFinalSize : Nat
  remoteInfo : Option RemoteInfo
  finalFile : Option Nat
  tmpFile : Option Nat
deriving DecidableEq, Repr

inductive ReqEvent where
  | probe
  | get (rangeStart : Option Nat) (rangeEnd : Option Nat)
deriving DecidableEq, Repr

inductive DlResult where
  | downloaded
  | alreadyExists
  | errorOut (e : DlErr)
  | undefinedReturn
deriving DecidableEq, Repr

structure DlRun where
  result : DlResult
  finalFile : Option Nat
  tmpFile : Option Nat
  requests : List ReqEvent
  waits : List Int
deriving DecidableEq, Repr

/-- The resume-offset decision of a non-sample attempt (the `else` branch of
`if (sampleBytes > 0)`): prefer a nonzero `existingTmpSize`; else, for a
nonzero `existingFinalSize`, probe if not yet probed, and if the remote
accepts ranges rename final to tmp (succeeds iff the final file is present)
and resume from its size; else offset 0.  Returns the offset, the updated
state and the probe events issued. -/
def decideResume (probe : RemoteInfo) (st : AttState) :
    Nat × AttState × List ReqEvent :=
  if st.existingTmpSize > 0 then (st.existingTmpSize, st, [])
  else if st.existingFinalSize > 0 then
    let (ri, st1, evs) :=
      match st.remoteInfo with
      | some ri => (ri, st, ([] : List ReqEvent))
      | none => (probe, { st with remoteInfo := some probe }, [ReqEvent.probe])
    if ri.acceptRanges then
      match st1.finalFile with
      | some fsz =>
        (st1.existingFinalSize,
          { st1 with tmpFile := some fsz, finalFile := none,
                     existingTmpSize := st1.existingFinalSize,
                     existingFinalSize := 0 }, evs)
      | none => (0, st1, evs)
    else (0, st1, evs)
  else (0, st, [])

/-- Progress accounting (the `expectedTotal` computation): the sample cap;
else the total declared by a `content-range` header; else
`resumeOffset + contentLength` when `fullLength` is truthy and resuming; else
the plain (possibly zero) content length; else unknown. -/
def computeExpectedTotal (sampleBytes : Nat) (contentRangeTotal contentLength : Option Nat)
    (resumeOffset : Nat) : Option Nat :=
  if sampleBytes > 0 then some sampleBytes
  else
    match contentRangeTotal with
    | some t => some t
    | none =>
      match contentLength with
      | some l => if l ≠ 0 ∧ resumeOffset > 0 then some (resumeOffset + l) else some l
      | none => none

inductive StepOut where
  | finished (r : DlResult) (st : AttState)
  | failed (e : DlErr) (st : AttState)
deriving DecidableEq, Repr

/-- One iteration of the attempt loop's `try` block, for the given fetch
outcome: decide the resume offset, issue the (possibly ranged) GET, check
`res.ok`/`res.body`, enforce 206 on resumed requests (discarding the partial
file otherwise), then stream the body to the tmp file — through `ByteLimit`
when sampling, whose cap firing is a successful completion — and on clean
completion rename tmp to final. -/
def attemptStep (probe : RemoteInfo) (outcome : FetchOutcome)
    (sampleBytes : Nat) (st : AttState) : StepOut × List ReqEvent :=
  let dec := if sampleBytes > 0 then (0, st, []) else decideResume probe st
  let resumeOffset := dec.1
  let st1 := dec.2.1
  let ev : ReqEvent :=
    if sampleBytes > 0 then .get (some 0) (some (sampleBytes - 1))
    else if resumeOffset > 0 then .get (some resumeOffset) none
    else .get none none
  let evs := dec.2.2 ++ [ev]
  match outcome with
  | .fetchErr r => (.failed (.network r) st1, evs)
  | .response resp =>
    if ¬(200 ≤ resp.status ∧ resp.status ≤ 299) ∨ resp.hasBody = false then
      (.failed (.httpFailure resp.status) st1, evs)
    else if resumeOffset > 0 ∧ resp.status ≠ 206 then
      (.failed .rangeNotHonored
        { st1 with tmpFile := none, existingTmpSize := 0 }, evs)
    else if sampleBytes > 0 then
      let written := min resp.bodyBytes sampleBytes
      match resp.bodyErr with
      | none =>
        (.finished .downloaded { st1 with finalFile := some written, tmpFile := none }, evs)
      | some r =>
        if resp.bodyBytes ≥ sampleBytes then
          (.finished .downloaded { st1 with finalFile := some written, tmpFile := none }, evs)
        else (.failed (.network r) { st1 with tmpFile := some written }, evs)
    else
      let base := if resumeOffset = 0 then 0 else st1.tmpFile.getD 0
      let newTmp := base + resp.bodyBytes
      match resp.bodyErr with
      | none =>
        (.finished .downloaded { st1 with finalFile := some newTmp, tmpFile := none }, evs)
      | some r => (.failed (.network r) { st1 with tmpFile := some newTmp }, evs)

/-- The attempt loop: run `attemptStep`; on failure retry (with backoff) while
attempts remain and the error is retryable, else propagate.  Exiting the loop
without entering it (only possible when `maxRetries < 1`) falls off the end of
the function: JS returns `undefined`. -/
def dlAttempt (probe : RemoteInfo) (outcomes : Nat → FetchOutcome)
    (maxRetries sampleBytes : Nat) : Nat → Nat → AttState → DlRun
  | 0, _, st => ⟨.undefinedReturn, st.finalFile, st.tmpFile, [], []⟩
  | fuel + 1, attempt, st =>
    match attemptStep probe (outcomes attempt) sampleBytes st with
    | (.finished r st2, evs) => ⟨r, st2.finalFile, st2.tmpFile, evs, []⟩
    | (.failed e st2, evs) =>
      if attempt < maxRetries ∧ downloadRetryable e = true then
        let rest := dlAttempt probe outcomes maxRetries sampleBytes fuel (attempt + 1) st2
        ⟨rest.result, rest.finalFile, rest.tmpFile, evs ++ rest.requests,
          toBackoffMs attempt :: rest.waits⟩
      else ⟨.errorOut e, st2.finalFile, st2.tmpFile, evs, []⟩

/-- Source `downloadToFile(url, filePath, referer, maxRetries, sampleBytes)`:
pre-flight checks (existing sample file; non-sample completeness probe
against the remote size), then the attempt loop. -/
def downloadToFile (probe : RemoteInfo) (outcomes : Nat → FetchOutcome)
    (maxRetries sampleBytes : Nat) (finalFile tmpFile : Option Nat) : DlRun :=
  let existingFinalSize := finalFile.getD 0
  if existingFinalSize > 0 ∧ sampleBytes > 0 then
    ⟨.alreadyExists, finalFile, tmpFile, [], []⟩
  else
    let existingTmpSize := tmpFile.getD 0
    if sampleBytes = 0 ∧ existingFinalSize > 0 then
      if sizeTruthy probe.size = true ∧ probe.size.getD 0 ≤ existingFinalSize then
        ⟨.alreadyExists, finalFile, tmpFile, [.probe], []⟩
      else
        let r := dlAttempt probe outcomes maxRetries sampleBytes maxRetries 1
          ⟨existingTmpSize, existingFinalSize, some probe, finalFile, tmpFile⟩
        ⟨r.result, r.finalFile, r.tmpFile, .probe :: r.requests, r.waits⟩
    else
      let r := dlAttempt probe outcomes maxRetries sampleBytes maxRetries 1
        ⟨existingTmpSize, existingFinalSize, none, finalFile, tmpFile⟩
      ⟨r.result, r.finalFile, r.tmpFile, r.requests, r.waits⟩

/-! ## Helper lemmas -/

lemma dlAttempt_finished (probe : RemoteInfo) (outcomes : Nat → FetchOutcome)
    (maxRetries sampleBytes fuel attempt : Nat) (st st2 : AttState)
    (r : DlResult) (evs : List ReqEvent)
    (h : attemptStep probe (outcomes attempt) sampleBytes st = (.finished r st2, evs)) :
    dlAttempt probe outcomes maxRetries sampleBytes (fuel + 1) attempt st =
      ⟨r, st2.finalFile, st2.tmpFile, evs, []⟩ := by
  simp [dlAttempt, h]

lemma dlAttempt_failed_stop (probe : RemoteInfo) (outcomes : Nat → FetchOutcome)
    (maxRetries sampleBytes fuel attempt : Nat) (st st2 : AttState)
    (e : DlErr) (evs : List ReqEvent)
    (h : attemptStep probe (outcomes attempt) sampleBytes st = (.failed e st2, evs))
    (hc : ¬(attempt < maxRetries ∧ downloadRetryable e = true)) :
    dlAttempt probe outcomes maxRetries sampleBytes (fuel + 1) attempt st =
      ⟨.errorOut e, st2.finalFile, st2.tmpFile, evs, []⟩ := by
  simp [dlAttempt, h, hc]

/-- A `ByteLimit` with a positive limit emits exactly the `(limit - seen)`-byte
prefix of whatever flows through it. -/
lemma byteLimitRun_take (k : Int) (hk : 0 < k) (seen : Nat) (cs : List (List Nat)) :
    byteLimitRun k seen cs = cs.flatten.take (k - seen).toNat := by
  induction cs generalizing seen with
  | nil => simp [byteLimitRun]
  | cons c cs ih =>
    have hk' : ¬ k ≤ 0 := by omega
    by_cases hr : k - (seen : Int) ≤ 0
    · have h0 : (k - (seen : Int)).toNat = 0 := by omega
      simp [byteLimitRun, byteLimitStep, hk', hr, ih, h0]
    · push_neg at hr
      by_cases hlen : (c.length : Int) > k - seen
      · have hbuf : (List.take (k - (seen : Int)).toNat c).length = (k - (seen : Int)).toNat := by
          rw [List.length_take]
          omega
        simp only [byteLimitRun, byteLimitStep, if_neg hk', if_neg (not_le.mpr hr),
          if_pos hlen]
        rw [ih _, List.flatten_cons, List.take_append_eq_append_take]
        have e1 : (k - ((seen + (List.take (k - (seen : Int)).toNat c).length : Nat) : Int)).toNat
            = 0 := by
          push_cast [hbuf]
          omega
        have e2 : (k - (seen : Int)).toNat - c.length = 0 := by omega
        rw [e1, e2]
      · push_neg at hlen
        simp only [byteLimitRun, byteLimitStep, if_neg hk', if_neg (not_le.mpr hr),
          if_neg (not_lt.mpr hlen)]
        rw [ih _, List.flatten_cons, List.take_append_eq_append_take]
        have hc1 : List.take (k - (seen : Int)).toNat c = c := by
          apply List.take_of_length_le
          omega
        have hc3 : (k - ((seen + c.length : Nat) : Int)).toNat
            = (k - (seen : Int)).toNat - c.length := by
          push_cast
          omega
        rw [hc1, hc3]

/-! ## Claim C1 -/

/-- C1 counterexample: a transfer resuming at offset 100 (tmp file of 100
bytes) whose range request is answered `200 OK` (not 206), with `maxRetries
= 4` so that retriable attempts remain after attempt 1.  The engine discards
the partial file but then propagates the range error as terminal — `waits`
is empty (no backoff) and the result is an error, not a retry from offset 0,
because the thrown `'Server did not honor range; restarting from 0'` error
is not classified retriable. -/
theorem range_restart_counterexample :
    downloadToFile ⟨none, false⟩
        (fun _ => .response ⟨200, true, some 900, none, 0, none⟩) 4 0 none (some 100) =
      ⟨.errorOut .rangeNotHonored, none, none, [.get (some 100) none], []⟩ ∧
    downloadRetryable .rangeNotHonored = false := by
  constructor
  · decide
  · decide

/-- C1 amended: for every transfer attempt with resume offset > 0 (a nonzero
tmp size), a success (2xx) response with a body and status ≠ 206 causes the
partial temporary file to be discarded, and the resulting range error
propagates as terminal with no backoff wait — at every attempt number,
regardless of how many retriable attempts remain. -/
theorem range_restart_propagates (probe : RemoteInfo) (outcomes : Nat → FetchOutcome)
    (maxRetries fuel attempt : Nat) (st : AttState) (resp : HttpResponse)
    (htmp : st.existingTmpSize ≠ 0)
    (ho : outcomes attempt = .response resp)
    (hok : 200 ≤ resp.status ∧ resp.status ≤ 299)
    (hbody : resp.hasBody = true)
    (h206 : resp.status ≠ 206) :
    dlAttempt probe outcomes maxRetries 0 (fuel + 1) attempt st =
      ⟨.errorOut .rangeNotHonored, st.finalFile, none,
        [.get (some st.existingTmpSize) none], []⟩ := by
  have hstep : attemptStep probe (outcomes attempt) 0 st =
      (.failed .rangeNotHonored { st with tmpFile := none, existingTmpSize := 0 },
        [.get (some st.existingTmpSize) none]) := by
    rw [ho]
    simp only [attemptStep, decideResume]
    simp [htmp, hok.1, hok.2, hbody, h206, Nat.pos_of_ne_zero htmp]
  have hnr : ¬(attempt < maxRetries ∧ downloadRetryable .rangeNotHonored = true) := by
    have : downloadRetryable .rangeNotHonored = false := by decide
    simp [this]
  exact dlAttempt_failed_stop probe outcomes maxRetries 0 fuel attempt st _ _ _ hstep hnr

theorem range_restart_propagates_witness :
    dlAttempt ⟨none, false⟩ (fun _ => .response ⟨200, true, some 900, none, 0, none⟩)
        4 0 (3 + 1) 1 ⟨100, 0, none, none, some 100⟩ =
      ⟨.errorOut .rangeNotHonored, none, none, [.get (some 100) none], []⟩ :=
  range_restart_propagates ⟨none, false⟩
    (fun _ => .response ⟨200, true, some 900, none, 0, none⟩) 4 3 1
    ⟨100, 0, none, none, some 100⟩ ⟨200, true, some 900, none, 0, none⟩
    (by decide) rfl (by decide) rfl (by decide)

/-! ## Claim C2 -/

/-- C2: a sample download with cap `K > 0`, against a resource that answers
the ranged request successfully and whose body supplies at least `K` bytes
(resource larger than `K`), yields a final file of exactly `K` bytes and the
result `"downloaded"`, with no backoff wait and a single request — whether
the body then ends cleanly or the cap's intentional early cut-off kills the
stream, the cut-off is not treated as an error that triggers a retry.
Moreover the `ByteLimit` transform with limit `K > 0` emits exactly the
first `K` bytes (the prefix) of its input and no more. -/
theorem sample_cap_exact (probe : RemoteInfo) (outcomes : Nat → FetchOutcome)
    (maxRetries K : Nat) (tmp0 : Option Nat) (resp : HttpResponse)
    (hK : 0 < K) (hMR : 1 ≤ maxRetries)
    (h1 : outcomes 1 = .response resp)
    (hok1 : 200 ≤ resp.status) (hok2 : resp.status ≤ 299)
    (hbody : resp.hasBody = true) (hbig : K ≤ resp.bodyBytes) :
    downloadToFile probe outcomes maxRetries K none tmp0 =
      ⟨.downloaded, some K, none, [.get (some 0) (some (K - 1))], []⟩ ∧
    ∀ chunks : List (List Nat),
      byteLimitRun (K : Int) 0 chunks = chunks.flatten.take K := by
  constructor
  · obtain ⟨m, rfl⟩ : ∃ m, maxRetries = m + 1 := ⟨maxRetries - 1, by omega⟩
    have hstep : attemptStep probe (outcomes 1) K ⟨tmp0.getD 0, 0, none, none, tmp0⟩ =
        (.finished .downloaded ⟨tmp0.getD 0, 0, none, some K, none⟩,
          [.get (some 0) (some (K - 1))]) := by
      rw [h1]
      cases hbe : resp.bodyErr with
      | none =>
        simp [attemptStep, hK, hok1, hok2, hbody, hbe, min_eq_right hbig]
      | some r =>
        simp [attemptStep, hK, hok1, hok2, hbody, hbe, min_eq_right hbig, hbig]
    have hloop := dlAttempt_finished probe outcomes (m + 1) K m 1
      ⟨tmp0.getD 0, 0, none, none, tmp0⟩ ⟨tmp0.getD 0, 0, none, some K, none⟩
      .downloaded [.get (some 0) (some (K - 1))] hstep
    simp only [downloadToFile, Option.getD_none]
    rw [if_neg (by omega), if_neg (by omega)]
    rw [hloop]
  · intro chunks
    rw [byteLimitRun_take (K : Int) (by exact_mod_cast hK) 0 chunks]
    norm_num

theorem sample_cap_exact_witness :
    downloadToFile ⟨none, false⟩
        (fun _ => .response ⟨206, true, some 5, none, 12, none⟩) 4 5 none none =
      ⟨.downloaded, some 5, none, [.get (some 0) (some 4)], []⟩ ∧
    byteLimitRun ((5 : Nat) : Int) 0 [[10, 20, 30], [40, 50, 60, 70]] =
      [10, 20, 30, 40, 50] := by
  have h := sample_cap_exact ⟨none, false⟩
    (fun _ => .response ⟨206, true, some 5, none, 12, none⟩) 4 5 none
    ⟨206, true, some 5, none, 12, none⟩
    (by decide) (by decide) rfl (by decide) (by decide) rfl (by decide)
  refine ⟨h.1, ?_⟩
  rw [h.2 [[10, 20, 30], [40, 50, 60, 70]]]
  decide

/-! ## Claim C3 -/

/-- C3: in every non-sample transfer attempt the resume offset is decided by
this priority (with `ri` the remote info in effect — the cached probe result
or a fresh probe):
1. a nonzero temporary-path size is used as the offset, nothing else changes;
2. else, a nonzero final size with range support renames the final file to
   the temporary path and resumes from its size;
3. else (no range support), offset 0 and the final file is left in place
   (abandoned);
4. else (nothing on disk), offset 0. -/
theorem resume_offset_priority (probe : RemoteInfo) (st : AttState) (ri : RemoteInfo)
    (hri : st.remoteInfo = some ri ∨ (st.remoteInfo = none ∧ ri = probe)) :
    (st.existingTmpSize ≠ 0 → decideResume probe st = (st.existingTmpSize, st, [])) ∧
    (∀ fsz, st.existingTmpSize = 0 → st.existingFinalSize ≠ 0 →
      ri.acceptRanges = true → st.finalFile = some fsz →
      decideResume probe st =
        (st.existingFinalSize,
          ⟨st.existingFinalSize, 0, some ri, none, some fsz⟩,
          if st.remoteInfo = none then [.probe] else [])) ∧
    (st.existingTmpSize = 0 → st.existingFinalSize ≠ 0 → ri.acceptRanges = false →
      decideResume probe st =
        (0, ⟨0, st.existingFinalSize, some ri, st.finalFile, st.tmpFile⟩,
          if st.remoteInfo = none then [.probe] else [])) ∧
    (st.existingTmpSize = 0 → st.existingFinalSize = 0 →
      decideResume probe st = (0, st, [])) := by
  obtain ⟨ts, fs, rc, ff, tf⟩ := st
  refine ⟨?_, ?_, ?_, ?_⟩
  · intro hts
    simp [decideResume, Nat.pos_of_ne_zero hts]
  · intro fsz hts hfs hacc hff
    subst hts
    rcases hri with h | ⟨h, rfl⟩ <;> subst h <;>
      simp_all [decideResume, Nat.pos_of_ne_zero hfs]
  · intro hts hfs hacc
    subst hts
    rcases hri with h | ⟨h, rfl⟩ <;> subst h <;>
      simp_all [decideResume, Nat.pos_of_ne_zero hfs]
  · intro hts hfs
    subst hts; subst hfs
    simp [decideResume]

theorem resume_offset_priority_witness :
    decideResume ⟨some 100, true⟩ ⟨0, 40, some ⟨some 100, true⟩, some 40, none⟩ =
      (40, ⟨40, 0, some ⟨some 100, true⟩, none, some 40⟩, []) := by
  have h := resume_offset_priority ⟨some 100, true⟩
    ⟨0, 40, some ⟨some 100, true⟩, some 40, none⟩ ⟨some 100, true⟩ (Or.inl rfl)
  have h2 := h.2.1 40 rfl (by decide) rfl rfl
  simpa using h2

/-! ## Claim C6 -/

/-- C6 counterexample: the remote size is known — the probe reports
`content-length: 0`, i.e. `size = some 0` — and the local final file (5
bytes) is ≥ it, yet `downloadToFile` does not return `"exists"`: because JS
`remoteInfo.size &&` treats 0 as falsy, it proceeds to issue a
body-transferring GET and re-downloads the file. -/
theorem already_complete_counterexample :
    downloadToFile ⟨some 0, false⟩
        (fun _ => .response ⟨200, true, some 10, none, 10, none⟩) 1 0 (some 5) none =
      ⟨.downloaded, some 10, none, [.probe, .get none none], []⟩ := by
  decide

/-- C6 amended: for a non-sample invocation with a nonzero-size final file,
the engine probes the remote, and if the remote size is known *and nonzero*
and the local final size is ≥ it, the call returns `"exists"` having issued
only the probe — no body-transferring GET. -/
theorem already_complete_detection (probe : RemoteInfo) (outcomes : Nat → FetchOutcome)
    (maxRetries n m : Nat) (tmp0 : Option Nat)
    (hn : n ≠ 0) (hm : probe.size = some m) (hm0 : m ≠ 0) (hle : m ≤ n) :
    downloadToFile probe outcomes maxRetries 0 (some n) tmp0 =
      ⟨.alreadyExists, some n, tmp0, [.probe], []⟩ := by
  simp [downloadToFile, sizeTruthy, hm, hm0, hle, Nat.pos_of_ne_zero hn]

theorem already_complete_detection_witness :
    downloadToFile ⟨some 5, true⟩ (fun _ => .fetchErr true) 4 0 (some 5) none =
      ⟨.alreadyExists, some 5, none, [.probe], []⟩ :=
  already_complete_detection ⟨some 5, true⟩ (fun _ => .fetchErr true) 4 5 5 none
    (by decide) rfl (by decide) (by decide)

/-! ## Claim C8 -/

/-- C8 counterexample: resuming at offset 7 with a known content length of 0
(`content-length: 0` header) and no content-range, the code sets the expected
total to the plain content length 0 — not `resumeOffset + contentLength = 7`
as the claimed priority order requires — because JS `fullLength &&` treats
the known length 0 as falsy. -/
theorem expected_total_counterexample :
    computeExpectedTotal 0 none (some 0) 7 = some 0 ∧
    computeExpectedTotal 0 none (some 0) 7 ≠ some (7 + 0) := by
  decide

/-- C8 amended: the expected total for progress accounting is chosen by this
priority: the sample cap when sampling; else the total declared by the
response's content-range header; else `resumeOffset + contentLength` when
resuming with a known *nonzero* content length; else the plain content
length; else unknown. -/
theorem expected_total_priority :
    (∀ K cr cl off, K ≠ 0 → computeExpectedTotal K cr cl off = some K) ∧
    (∀ t cl off, computeExpectedTotal 0 (some t) cl off = some t) ∧
    (∀ l off, l ≠ 0 → off ≠ 0 →
      computeExpectedTotal 0 none (some l) off = some (off + l)) ∧
    (∀ l off, l = 0 ∨ off = 0 → computeExpectedTotal 0 none (some l) off = some l) ∧
    (∀ off, computeExpectedTotal 0 none none off = none) := by
  refine ⟨?_, ?_, ?_, ?_, ?_⟩
  · intro K cr cl off hK
    simp [computeExpectedTotal, Nat.pos_of_ne_zero hK]
  · intro t cl off
    simp [computeExpectedTotal]
  · intro l off hl hoff
    simp [computeExpectedTotal, hl, Nat.pos_of_ne_zero hoff]
  · intro l off h
    rcases h with h | h <;> simp [computeExpectedTotal, h]
  · intro off
    simp [computeExpectedTotal]

theorem expected_total_priority_witness :
    computeExpectedTotal 3 (some 99) (some 7) 2 = some 3 ∧
    computeExpectedTotal 0 (some 99) (some 7) 2 = some 99 ∧
    computeExpectedTotal 0 none (some 7) 2 = some (2 + 7) ∧
    computeExpectedTotal 0 none (some 7) 0 = some 7 ∧
    computeExpectedTotal 0 none none 2 = none :=
  ⟨expected_total_priority.1 3 (some 99) (some 7) 2 (by decide),
   expected_total_priority.2.1 99 (some 7) 2,
   expected_total_priority.2.2.1 7 2 (by decide) (by decide),
   expected_total_priority.2.2.2.1 7 0 (Or.inr rfl),
   expected_total_priority.2.2.2.2 2⟩

/-! ## Claim C10 -/

/-- C10 counterexample: with `maxRetries = 0` the attempt loop indeed never
runs, but the function does not always return `undefined`: a sample call
against an already-present nonzero final file takes the pre-flight path and
returns `"exists"`. -/
theorem zero_retries_counterexample :
    downloadToFile ⟨none, false⟩ (fun _ => .fetchErr true) 0 5 (some 3) none =
      ⟨.alreadyExists, some 3, none, [], []⟩ := by
  decide

/-- C10 amended: with `maxRetries < 1` the attempt loop never executes — no
download GET is issued and no backoff happens — and the call either returns
`"exists"` from a pre-flight check or falls off the end of the function
(JS `undefined`); it never returns `"downloaded"` and never throws. -/
theorem zero_retries_behavior (probe : RemoteInfo) (outcomes : Nat → FetchOutcome)
    (maxRetries sampleBytes : Nat) (finalFile tmpFile : Option Nat)
    (h : maxRetries < 1) :
    ((downloadToFile probe outcomes maxRetries sampleBytes finalFile tmpFile).result
        = .alreadyExists ∨
      (downloadToFile probe outcomes maxRetries sampleBytes finalFile tmpFile).result
        = .undefinedReturn) ∧
    (downloadToFile probe outcomes maxRetries sampleBytes finalFile tmpFile).waits = [] ∧
    ∀ a b, ReqEvent.get a b ∉
      (downloadToFile probe outcomes maxRetries sampleBytes finalFile tmpFile).requests := by
  have h0 : maxRetries = 0 := by omega
  subst h0
  have hd : ∀ st : AttState, dlAttempt probe outcomes 0 sampleBytes 0 1 st =
      ⟨.undefinedReturn, st.finalFile, st.tmpFile, [], []⟩ := fun _ => rfl
  simp only [downloadToFile, hd]
  split
  · simp
  · split
    · split
      · simp
      · simp
    · simp

theorem zero_retries_behavior_witness :
    ((downloadToFile ⟨some 9, true⟩ (fun _ => .fetchErr true) 0 0 (some 2) none).result
        = .alreadyExists ∨
      (downloadToFile ⟨some 9, true⟩ (fun _ => .fetchErr true) 0 0 (some 2) none).result
        = .undefinedReturn) ∧
    (downloadToFile ⟨some 9, true⟩ (fun _ => .fetchErr true) 0 0 (some 2) none).waits = [] ∧
    ∀ a b, ReqEvent.get a b ∉
      (downloadToFile ⟨some 9, true⟩ (fun _ => .fetchErr true) 0 0 (some 2) none).requests :=
  zero_retries_behavior ⟨some 9, true⟩ (fun _ => .fetchErr true) 0 0 (some 2) none
    (by decide)

/-! ## The session manager (`prepareSession`)

Oracles: `verifyAuth c` is whether the core-data verification of the active
cookie `c` reports `is_authenticated` (a thrown verification error behaves
like `false`: `verify()` catches and returns null); `loginOutcome` is what
`loginWithCredentialsInline` does — set a fresh `ACTIVE_COOKIE` and return,
or throw (caught by `prepareSession`, leaving `ACTIVE_COOKIE` unchanged).
`cookieOverride` is the config cookie when it is set and not the
placeholder; `storedSession` the nonempty `config.auth.sessionCookie`;
`creds` the nonempty email/password pair. -/

inductive LoginOutcome where
  | success (newCookie : String)
  | failure
deriving DecidableEq, Repr

structure SessionEnv where
  cookieOverride : Option String
  storedSession : Option String
  forceLogin : Bool
  creds : Option (String × String)
  verifyAuth : String → Bool
  loginOutcome : LoginOutcome

inductive SessSource where
  | configCookie
  | configSession
  | freshLogin
  | noSession
deriving DecidableEq, Repr

/-- What `prepareSession` returns and leaves behind: the source tag, the
final `ACTIVE_COOKIE`, and whether the login handshake was attempted. -/
structure PrepResult where
  source : SessSource
  active : Option String
  loginAttempted : Bool
deriving DecidableEq, Repr

/-- Step 3 (login with credentials) and step 4 (fall-through), entered with
the `ACTIVE_COOKIE` value left by steps 1–2. -/
def sessionStep3 (env : SessionEnv) (active : Option String) : PrepResult :=
  if env.creds.isSome = true ∧ (active = none ∨ env.forceLogin = true) then
    match env.loginOutcome with
    | .success nc =>
      if env.verifyAuth nc = true then ⟨.freshLogin, some nc, true⟩
      else ⟨.noSession, some nc, true⟩
    | .failure => ⟨.noSession, active, true⟩
  else ⟨.noSession, active, false⟩

/-- Step 2 (stored-session reuse): skipped entirely on `forceLogin`;
a stored session that fails verification sets the active cookie to absent. -/
def sessionStep2 (env : SessionEnv) (active : Option String) : PrepResult :=
  match env.storedSession with
  | some s =>
    if env.forceLogin = true then sessionStep3 env active
    else if env.verifyAuth s = true then ⟨.configSession, some s, false⟩
    else sessionStep3 env none
  | none => sessionStep3 env active

/-- Source `prepareSession`: step 1 installs the explicit override cookie (if any)
and verifies it; on verification failure the override *remains* the active
cookie and control falls through to steps 2–4. -/
def prepareSession (env : SessionEnv) : PrepResult :=
  match env.cookieOverride with
  | some c =>
    if env.verifyAuth c = true then ⟨.configCookie, some c, false⟩
    else sessionStep2 env (some c)
  | none => sessionStep2 env none

/-! ## Claim C5 -/

/-- C5 counterexample: an identity/secret pair is available, the only
installed credential (the config override cookie) fails server verification
— so no verified credential exists — and no fresh login was demanded.  The
claim requires the fresh login handshake to run and the failed credential to
be set absent; instead `prepareSession` leaves the unverified override
installed (`active = some "c"`) and never attempts the login
(`loginAttempted = false`), because only the stored-session path invalidates
the active cookie. -/
theorem session_login_gate_counterexample :
    prepareSession
        ⟨some "c", none, false, some ("e", "p"), fun _ => false, .success "n"⟩ =
      ⟨.noSession, some "c", false⟩ := by
  rfl

/-- C5 amended: the fresh login handshake runs when an identity/secret pair
is available and either the active credential is absent after steps 1–2 or a
fresh login was demanded.  Invalidation on failed verification happens only
for the persisted stored-session credential (the active cookie is set absent
there, so with credentials present the login fallback is then reached); a
config-override credential that fails verification stays installed and,
without `forceLogin`, blocks the login fallback. -/
theorem session_login_gate (env : SessionEnv) :
    (∀ p act, env.creds = some p → (act = none ∨ env.forceLogin = true) →
      (sessionStep3 env act).loginAttempted = true) ∧
    (∀ p s, env.cookieOverride = none → env.storedSession = some s →
      env.forceLogin = false → env.verifyAuth s = false → env.creds = some p →
      (prepareSession env).loginAttempted = true ∧
      (env.loginOutcome = .failure → (prepareSession env).active = none)) ∧
    (∀ c p, env.cookieOverride = some c → env.verifyAuth c = false →
      env.storedSession = none → env.forceLogin = false → env.creds = some p →
      (prepareSession env).loginAttempted = false ∧
      (prepareSession env).active = some c) := by
  refine ⟨?_, ?_, ?_⟩
  · intro p act hp hgate
    unfold sessionStep3
    rw [if_pos (⟨by rw [hp]; rfl, hgate⟩ :
      env.creds.isSome = true ∧ (act = none ∨ env.forceLogin = true))]
    cases env.loginOutcome with
    | success nc =>
      by_cases hv : env.verifyAuth nc = true <;> simp [hv]
    | failure => rfl
  · intro p s hov hs hf hv hp
    have : prepareSession env = sessionStep3 env none := by
      simp [prepareSession, sessionStep2, hov, hs, hf, hv]
    rw [this]
    unfold sessionStep3
    rw [if_pos (⟨by rw [hp]; rfl, Or.inl rfl⟩ :
      env.creds.isSome = true ∧ ((none : Option String) = none ∨ env.forceLogin = true))]
    cases hl : env.loginOutcome with
    | success nc =>
      by_cases hver : env.verifyAuth nc = true <;> simp [hver]
    | failure => simp
  · intro c p hov hv hs hf hp
    simp [prepareSession, sessionStep2, sessionStep3, hov, hv, hs, hf, hp]

theorem session_login_gate_witness :
    (sessionStep3 ⟨none, none, false, some ("e", "p"), fun _ => true, .success "n"⟩
        none).loginAttempted = true ∧
    (prepareSession ⟨none, some "s", false, some ("e", "p"), fun c => c = "n", .success "n"⟩
        ).loginAttempted = true ∧
    (prepareSession ⟨some "c", none, false, some ("e", "p"), fun _ => false, .success "n"⟩
        ).loginAttempted = false := by
  refine ⟨?_, ?_, ?_⟩
  · exact (session_login_gate
      ⟨none, none, false, some ("e", "p"), fun _ => true, .success "n"⟩).1
      ("e", "p") none rfl (Or.inl rfl)
  · exact ((session_login_gate
      ⟨none, some "s", false, some ("e", "p"), fun c => c = "n", .success "n"⟩).2.1
      ("e", "p") "s" rfl rfl rfl (by decide) rfl).1
  · exact ((session_login_gate
      ⟨some "c", none, false, some ("e", "p"), fun _ => false, .success "n"⟩).2.2
      "c" ("e", "p") rfl rfl rfl rfl rfl).1

/-! ## The login handshake (`loginWithCredentialsInline`)

The `SimpleCookieStore` is an insertion-ordered name/value list with
last-write-wins overwrite.  Each raw HTTP exchange is an oracle `LoginResp`:
the final status after `rawRequestWithRetry`, the parsed `set-cookie`
name/value pairs, the JSON body (`none` = `JSON.parse` failed) with its
`status`/`message` fields, and — for the core-data fallback only — the
`auth.csrf` field of the body. -/

def storeSet (m : List (String × String)) (k v : String) : List (String × String) :=
  if m.any (fun p => p.1 == k) then
    m.map (fun p => if p.1 == k then (k, v) else p)
  else m ++ [(k, v)]

def applyCookies (m : List (String × String)) (new : List (String × String)) :
    List (String × String) :=
  new.foldl (fun acc kv => storeSet acc kv.1 kv.2) m

def storeGet (m : List (String × String)) (k : String) : Option String :=
  (m.find? (fun p => p.1 == k)).map (fun p => p.2)

structure LoginJson where
  status : Option String
  message : Option String
deriving DecidableEq, Repr

structure LoginResp where
  status : Nat
  cookies : List (String × String)
  body : Option LoginJson
  csrfBody : Option String
deriving DecidableEq, Repr

structure LoginEnv where
  email : String
  password : String
  loginPage : LoginResp
  coreData : LoginResp
  checkUser : LoginResp
  authResp : LoginResp

inductive LoginReq where
  | getLoginPage
  | getCoreData
  | postCheckUser
  | postLoginAuth
deriving DecidableEq, Repr

inductive LoginErrKind where
  | loginInput
  | loginCsrf
  | httpCheck (status : Nat)
  | loginCheckJson
  | loginCheckFailed
  | loginFlow
  | httpAuth (status : Nat)
  | loginAuthJson
  | loginAuthFailed
  | loginCookie
deriving DecidableEq, Repr

/-- Step 0: visit the login page; if no `csrftoken` cookie was set, fall back
to the core-data endpoint (body `auth.csrf`, then its cookies).  Returns the
token (if any), the cookie store so far and the requests issued. -/
def loginCsrfPhase (env : LoginEnv) :
    Option String × List (String × String) × List LoginReq :=
  let store0 := applyCookies [] env.loginPage.cookies
  match storeGet store0 "csrftoken" with
  | some t => (some t, store0, [.getLoginPage])
  | none =>
    let store1 := applyCookies store0 env.coreData.cookies
    let csrf1 :=
      match env.coreData.csrfBody with
      | some t => some t
      | none => storeGet store1 "csrftoken"
    (csrf1, store1, [.getLoginPage, .getCoreData])

/-- Source `loginWithCredentialsInline(email, password)`: the result (error kind or
composed cookie string) together with the requests issued, in order. -/
def loginWithCredentialsInline (env : LoginEnv) :
    (LoginErrKind ⊕ String) × List LoginReq :=
  if env.email = "" ∨ env.password = "" then (.inl .loginInput, [])
  else
    match loginCsrfPhase env with
    | (none, _, log) => (.inl .loginCsrf, log)
    | (some csrf, store, log) =>
      let r := env.checkUser
      let store1 := applyCookies store r.cookies
      let log1 := log ++ [.postCheckUser]
      if ¬(200 ≤ r.status ∧ r.status ≤ 299) then (.inl (.httpCheck r.status), log1)
      else
        match r.body with
        | none => (.inl .loginCheckJson, log1)
        | some j =>
          if ¬(j.status = some "success") then (.inl .loginCheckFailed, log1)
          else if ¬(j.message = some "get-pass") then (.inl .loginFlow, log1)
          else
            let r2 := env.authResp
            let store2 := applyCookies store1 r2.cookies
            let log2 := log1 ++ [.postLoginAuth]
            if ¬(200 ≤ r2.status ∧ r2.status ≤ 299) then (.inl (.httpAuth r2.status), log2)
            else
              match r2.body with
              | none => (.inl .loginAuthJson, log2)
              | some j2 =>
                if ¬(j2.status = some "success") then (.inl .loginAuthFailed, log2)
                else
                  match storeGet store2 "sessionid" with
                  | none => (.inl .loginCookie, log2)
                  | some sid =>
                    let ct := (storeGet store2 "csrftoken").getD csrf
                    (.inr ("csrftoken=" ++ ct ++ "; sessionid=" ++ sid), log2)

/-! ## Claim C7 -/

lemma loginCsrfPhase_no_auth_req (env : LoginEnv) :
    LoginReq.postLoginAuth ∉ (loginCsrfPhase env).2.2 := by
  unfold loginCsrfPhase
  rcases h : storeGet (applyCookies [] env.loginPage.cookies) "csrftoken" with _ | t <;>
    simp [h]

/-- C7: when the check-active-user step succeeds at the application level
(`status = "success"`) but its follow-up instruction is anything other than
`"get-pass"`, the handshake fails immediately with `LOGIN_FLOW` and the
login-authentication request is never issued. -/
theorem login_flow_gate (env : LoginEnv) (t : String) (j : LoginJson)
    (he : env.email ≠ "") (hp : env.password ≠ "")
    (hcs : (loginCsrfPhase env).1 = some t)
    (hs1 : 200 ≤ env.checkUser.status) (hs2 : env.checkUser.status ≤ 299)
    (hb : env.checkUser.body = some j)
    (hj : j.status = some "success")
    (hm : j.message ≠ some "get-pass") :
    (loginWithCredentialsInline env).1 = .inl .loginFlow ∧
    LoginReq.postLoginAuth ∉ (loginWithCredentialsInline env).2 := by
  have hlog := loginCsrfPhase_no_auth_req env
  unfold loginWithCredentialsInline
  rw [if_neg (by simp [he, hp])]
  rcases hphase : loginCsrfPhase env with ⟨c, store, log⟩
  rw [hphase] at hcs hlog
  simp only at hcs hlog
  subst hcs
  simp only [hb]
  rw [if_neg (by simp [hs1, hs2]), if_neg (by simp [hj]), if_pos (by simp [hm])]
  refine ⟨rfl, ?_⟩
  simp [hlog]

theorem login_flow_gate_witness :
    (loginWithCredentialsInline
        ⟨"user@example.com", "pw",
          ⟨200, [("csrftoken", "T")], none, none⟩,
          ⟨200, [], none, none⟩,
          ⟨200, [], some ⟨some "success", some "get-sms"⟩, none⟩,
          ⟨200, [], some ⟨some "success", none⟩, none⟩⟩).1 = .inl .loginFlow ∧
    LoginReq.postLoginAuth ∉ (loginWithCredentialsInline
        ⟨"user@example.com", "pw",
          ⟨200, [("csrftoken", "T")], none, none⟩,
          ⟨200, [], none, none⟩,
          ⟨200, [], some ⟨some "success", some "get-sms"⟩, none⟩,
          ⟨200, [], some ⟨some "success", none⟩, none⟩⟩).2 :=
  login_flow_gate
    ⟨"user@example.com", "pw",
      ⟨200, [("csrftoken", "T")], none, none⟩,
      ⟨200, [], none, none⟩,
      ⟨200, [], some ⟨some "success", some "get-sms"⟩, none⟩,
      ⟨200, [], some ⟨some "success", none⟩, none⟩⟩
    "T" ⟨some "success", some "get-sms"⟩
    (by decide) (by decide) (by decide) (by decide) (by decide) rfl rfl (by decide)

end MDL
